import Mathlib

/-!
Verification development for the chart computation and reconciliation engine
of the pythia-api server (server.js).  The definitions below are a shallow
embedding of the JavaScript source: pure helpers (`getZodiacSign`,
`getHousePlacement`, the aspect detector) are translated directly; the
external collaborators (geocoding, timezone lookup, luxon date handling,
the Swiss Ephemeris library, JSON parsing and the database) are modelled as
an explicit environment of fallible functions (`Env`), and the stateful
orchestration (`calculateChart`, `recalculateAllChartsOnStartup`) is
translated as `Except`-returning functions over that environment.
JavaScript numbers are modelled as rationals, JavaScript `undefined`/`null`
as `Option`.
-/

/-! ## Numeric helpers modelling JavaScript arithmetic -/

/-- JavaScript `Math.trunc` semantics on rationals: rounding toward zero.
This is the rounding used by the JavaScript remainder operator. -/
def jsTrunc (q : ℚ) : ℤ := if q < 0 then ⌈q⌉ else ⌊q⌋

/-- The JavaScript remainder operator on numbers: `a % b = a - b * trunc (a / b)`. -/
def jsMod (a b : ℚ) : ℚ := a - b * (jsTrunc (a / b) : ℚ)

/-- Two-digit zero padding of a natural number, as used by luxon format
specifiers such as `HH`, `mm`, `ss`. -/
def pad2 (n : ℕ) : String := if n < 10 then "0" ++ toString n else toString n

/-- JavaScript `String.prototype.padStart(2, "0")`. -/
def padStart2 (s : String) : String :=
  if 2 ≤ s.length then s else if s.length = 1 then "0" ++ s else "00"

/-- Whether an `Except` value is a success.  Used to describe which
per-body ephemeris calls reported no error. -/
def okB {α : Type} : Except String α → Bool
  | Except.ok _ => true
  | Except.error _ => false

/-! ## Zodiac sign classifier (`getZodiacSign` in server.js) -/

/-- The fixed table of twelve sign names, in source declaration order. -/
def zodiacSigns : List String :=
  ["Aries", "Taurus", "Gemini", "Cancer", "Leo", "Virgo",
   "Libra", "Scorpio", "Sagittarius", "Capricorn", "Aquarius", "Pisces"]

/-- Result of `getZodiacSign`.  The `sign` is an `Option` because the
JavaScript array access `signs[signIndex]` yields `undefined` when the
index is outside `0..11`. -/
structure SignInfo where
  sign : Option String
  degrees : ℚ
deriving DecidableEq

/-- Translation of `getZodiacSign`: `signIndex = Math.floor(longitude / 30)`,
`degreesInSign = longitude % 30`, `sign = signs[signIndex]`.  No
normalization of the input longitude is performed by the source. -/
def getZodiacSign (longitude : ℚ) : SignInfo :=
  { sign := if (⌊longitude / 30⌋ : ℤ) < 0 then none
            else zodiacSigns.get? (⌊longitude / 30⌋).toNat,
    degrees := jsMod longitude 30 }

/-! ## House placement (`getHousePlacement` in server.js) -/

/-- The per-index arc test of the `getHousePlacement` loop: with
`cusp1 = houseCusps[i]` and `cusp2 = houseCusps[(i+1) % 12]`, a longitude
matches house `i+1` when it lies in the half-open arc from `cusp1` to
`cusp2`, the comparison being split on whether the arc crosses 0°. -/
def houseMatchB (longitude : ℚ) (l : List ℚ) (i : ℕ) : Bool :=
  let cusp1 := l.getD i 0
  let cusp2 := l.getD ((i + 1) % 12) 0
  if cusp1 > cusp2 then
    decide (longitude ≥ cusp1) || decide (longitude < cusp2)
  else
    decide (longitude ≥ cusp1) && decide (longitude < cusp2)

/-- The `for (let i = 0; i < 12; i++)` search of `getHousePlacement`,
returning `i + 1` at the first matching index.  `fuel` counts the
remaining iterations. -/
def houseLoop (longitude : ℚ) (l : List ℚ) : ℕ → ℕ → Option ℕ
  | 0, _ => none
  | fuel + 1, i =>
    if houseMatchB longitude l i then some (i + 1)
    else houseLoop longitude l fuel (i + 1)

/-- Translation of `getHousePlacement`: `null` when the cusp array is
absent or has fewer than 12 entries, otherwise the first matching house
of the 12-iteration search, `null` when none matches. -/
def getHousePlacement (longitude : ℚ) (houseCusps : Option (List ℚ)) : Option ℕ :=
  match houseCusps with
  | none => none
  | some l => if l.length < 12 then none else houseLoop longitude l 12 0

/-! ## Aspect detector (the aspect section of `calculateChart`) -/

/-- One entry of the `aspectTypes` catalog. -/
structure AspectType where
  name : String
  angle : ℚ
  orb : ℚ
  color : String
deriving DecidableEq

/-- The `aspectTypes` catalog, in source declaration order (the order the
`for...in` loop enumerates). -/
def aspectTypes : List AspectType :=
  [⟨"conjunction", 0, 8, "#4a4a4a"⟩,
   ⟨"opposition", 180, 8, "#ff4d4d"⟩,
   ⟨"trine", 120, 8, "#2b8a3e"⟩,
   ⟨"square", 90, 8, "#e03131"⟩,
   ⟨"sextile", 60, 6, "#1c7ed6"⟩,
   ⟨"quincunx", 150, 3, "#f08c00"⟩]

/-- The folded angular separation of two longitudes:
`angle = |l1 - l2|`, replaced by `360 - angle` when it exceeds 180. -/
def separation (l1 l2 : ℚ) : ℚ :=
  let a := |l1 - l2|
  if a > 180 then 360 - a else a

/-- The catalog walk with `break`: the first catalog entry whose angle is
within its orb of the separation is returned, with the realized orb and
the entry color; later entries are not tested. -/
def findAspect (sep : ℚ) : List AspectType → Option (String × ℚ × String)
  | [] => none
  | a :: rest =>
    if |sep - a.angle| ≤ a.orb then some (a.name, |sep - a.angle|, a.color)
    else findAspect sep rest

/-- Aspect detection for one pair of longitudes. -/
def detectAspect (l1 l2 : ℚ) : Option (String × ℚ × String) :=
  findAspect (separation l1 l2) aspectTypes

/-! ## Chart data model -/

/-- The caller inputs of a chart computation, stored verbatim in
`meta.inputs`. -/
structure ChartInputs where
  year : ℤ
  month : ℤ
  day : ℤ
  time : String
  location : String
deriving DecidableEq

/-- Result of the geocoding call: coordinates and formatted address. -/
structure GeoLocation where
  lat : ℚ
  lng : ℚ
  formatted_address : String
deriving DecidableEq

/-- The UTC instant produced by the luxon conversion, as calendar fields. -/
structure UTCTime where
  year : ℤ
  month : ℤ
  day : ℤ
  hour : ℕ
  minute : ℕ
  second : ℕ
deriving DecidableEq

/-- Raw per-body result of `swe_calc_ut`. -/
structure BodyRaw where
  longitude : ℚ
  latitude : ℚ
  speed : ℚ
deriving DecidableEq

/-- Raw result of `swe_houses`: ascendant, midheaven and the house cusp
array (of which the source keeps `slice(0, 12)`). -/
structure HousesRaw where
  asc : ℚ
  mc : ℚ
  house : List ℚ
deriving DecidableEq

/-- One body entry of `chartData.positions`. -/
structure Position where
  longitude : ℚ
  latitude : ℚ
  speed : ℚ
  sign : Option String
  sign_degrees : ℚ
  house : Option ℕ
deriving DecidableEq

/-- The `chartData.houses` payload. -/
structure HouseSet where
  system : String
  ascendant : ℚ
  mc : ℚ
  cusps : List ℚ
deriving DecidableEq

/-- One entry of `chartData.aspects`. -/
structure AspectEntry where
  planet1 : String
  planet2 : String
  aspect : String
  orb : ℚ
  color : String
deriving DecidableEq

/-- The `chartData.meta` payload. -/
structure ChartMeta where
  date : String
  location : String
  latitude : ℚ
  longitude : ℚ
  inputs : ChartInputs
deriving DecidableEq

/-- The full chart document returned by `calculateChart`. -/
structure ChartDocument where
  meta : ChartMeta
  positions : List (String × Position)
  houses : Option HouseSet
  aspects : List AspectEntry
deriving DecidableEq

/-- The nested `i < j` pair loop of the aspect section: each earlier body
is paired with every later body, and a pair contributes an entry exactly
when the detector matches some catalog kind. -/
def buildAspects : List (String × Position) → List AspectEntry
  | [] => []
  | (n1, p1) :: rest =>
    (rest.filterMap fun q =>
      (detectAspect p1.longitude q.2.longitude).map fun h =>
        { planet1 := n1, planet2 := q.1, aspect := h.1, orb := h.2.1, color := h.2.2 })
    ++ buildAspects rest

/-! ## Persisted (stored) record model for the recalculation job -/

/-- The `meta.inputs` object of a stored document.  Fields are `Option`
because legacy documents may lack any of them; the job guards each with a
JavaScript truthiness check. -/
structure StoredInputs where
  year : Option ℤ
  month : Option ℤ
  day : Option ℤ
  time : Option String
  location : Option String
deriving DecidableEq

/-- JavaScript truthiness of a possibly-missing number (0 is falsy). -/
def truthyInt : Option ℤ → Bool
  | none => false
  | some v => decide (v ≠ 0)

/-- JavaScript truthiness of a possibly-missing string (empty is falsy). -/
def truthyStr : Option String → Bool
  | none => false
  | some s => decide (s ≠ "")

/-- The guard `!inputs.year || !inputs.month || ... ` of the job, stated
positively: every reconstructed or stored input field is truthy. -/
def inputsValid (i : StoredInputs) : Bool :=
  truthyInt i.year && truthyInt i.month && truthyInt i.day &&
  truthyStr i.time && truthyStr i.location

/-- The `meta` object of a stored document. -/
structure StoredMeta where
  date : Option String
  location : Option String
  inputs : Option StoredInputs
deriving DecidableEq

/-- A stored chart document as read back from the database. -/
structure StoredDoc where
  meta : Option StoredMeta
deriving DecidableEq

/-- One row of `astro_event_data`: the `event_data` column either still
needs `JSON.parse` (left) or is already an object (right). -/
structure StoredRecord where
  event_id : ℤ
  event_data : String ⊕ StoredDoc

/-! ## The environment of external collaborators -/

/-- All external collaborators of the engine, modelled as fallible
functions: the geocoding and timezone web services, the luxon date
library, the Swiss Ephemeris library, `JSON.parse`, and the database
update statement. -/
structure Env where
  geocodingApiKey : Option String
  geocode : String → Except String GeoLocation
  timezoneLookup : ℚ → ℚ → String → Except String String
  toUTC : String → String → Option UTCTime
  julday : ℤ → ℤ → ℤ → ℚ → ℚ
  formatUTC : UTCTime → String
  calcBody : ℚ → ℕ → Except String BodyRaw
  calcHouses : ℚ → ℚ → ℚ → String → Except String HousesRaw
  fromSQL : String → Option UTCTime
  parseJSON : String → Except String StoredDoc
  update : ℤ → ChartDocument → Except String Unit

/-! ## The chart assembler (`calculateChart` in server.js) -/

/-- The local ISO string
`year-month-dayTtime` with two-digit padded month and day. -/
def isoStringOf (year month day : ℤ) (time : String) : String :=
  toString year ++ "-" ++ padStart2 (toString month) ++ "-" ++
    padStart2 (toString day) ++ "T" ++ time

/-- The Julian day call: `swe_julday(year, month, day, hour + minute/60
+ second/3600, SE_GREG_CAL)` on the UTC fields. -/
def juldayOf (env : Env) (u : UTCTime) : ℚ :=
  env.julday u.year u.month u.day
    ((u.hour : ℚ) + (u.minute : ℚ) / 60 + (u.second : ℚ) / 3600)

/-- The fixed tracked bodies with their Swiss Ephemeris identifiers, in
source declaration order. -/
def planets : List (String × ℕ) :=
  [("Sun", 0), ("Moon", 1), ("Mercury", 2), ("Venus", 3), ("Mars", 4),
   ("Jupiter", 5), ("Saturn", 6), ("Uranus", 7), ("Neptune", 8),
   ("Pluto", 9), ("North Node", 11), ("Chiron", 15)]

/-- One iteration of the planet loop: on an ephemeris error the body is
skipped (`continue`), otherwise a position entry is built, with a house
placement exactly when houses were requested and computed. -/
def posOf (env : Env) (jd : ℚ) (includeHouses : Bool) (houses : Option HouseSet)
    (p : String × ℕ) : Option (String × Position) :=
  match env.calcBody jd p.2 with
  | Except.error _ => none
  | Except.ok r =>
    some (p.1,
      { longitude := r.longitude, latitude := r.latitude, speed := r.speed,
        sign := (getZodiacSign r.longitude).sign,
        sign_degrees := (getZodiacSign r.longitude).degrees,
        house :=
          match includeHouses, houses with
          | true, some hs => getHousePlacement r.longitude (some hs.cusps)
          | _, _ => none })

/-- The planet loop over the tracked bodies. -/
def computePositions (env : Env) (jd : ℚ) (includeHouses : Bool)
    (houses : Option HouseSet) : List (String × Position) :=
  planets.filterMap (posOf env jd includeHouses houses)

/-- The conditional house computation: absent when not requested; a
`swe_houses` error aborts the whole chart computation; on success the
payload keeps the system code, ascendant, midheaven and the first 12
cusps. -/
def computeHouses (env : Env) (jd lat lng : ℚ) (includeHouses : Bool)
    (houseSystem : String) : Except String (Option HouseSet) :=
  if includeHouses then
    match env.calcHouses jd lat lng houseSystem with
    | Except.error e => Except.error ("House calculation failed: " ++ e)
    | Except.ok hr =>
      Except.ok (some { system := houseSystem, ascendant := hr.asc,
                        mc := hr.mc, cusps := hr.house.take 12 })
  else Except.ok none

/-- Translation of `calculateChart`: geocode, timezone lookup, local to
UTC conversion (each failure aborting the call), then Julian day, the
conditional house computation, the planet loop and the aspect loop,
assembling the document with `meta.inputs` set to the original caller
arguments. -/
def calculateChart (env : Env) (year month day : ℤ) (time location : String)
    (includeHouses : Bool := true) (houseSystem : String := "P") :
    Except String ChartDocument :=
  match env.geocodingApiKey with
  | none => Except.error "GEOCODING_API_KEY not found on the server."
  | some _ =>
    match env.geocode location with
    | Except.error e => Except.error e
    | Except.ok geo =>
      match env.timezoneLookup geo.lat geo.lng (isoStringOf year month day time) with
      | Except.error e => Except.error e
      | Except.ok tzId =>
        match env.toUTC (isoStringOf year month day time) tzId with
        | none => Except.error "Invalid date or time provided"
        | some utcTime =>
          match computeHouses env (juldayOf env utcTime) geo.lat geo.lng
              includeHouses houseSystem with
          | Except.error e => Except.error e
          | Except.ok houses =>
            Except.ok
              { meta := { date := env.formatUTC utcTime,
                          location := geo.formatted_address,
                          latitude := geo.lat, longitude := geo.lng,
                          inputs := { year := year, month := month, day := day,
                                      time := time, location := location } },
                positions := computePositions env (juldayOf env utcTime) includeHouses houses,
                houses := houses,
                aspects := buildAspects (computePositions env (juldayOf env utcTime) includeHouses houses) }

/-! ## The recalculation job (`recalculateAllChartsOnStartup`) -/

/-- Luxon `toFormat("HH:mm:ss")` on the parsed UTC fields. -/
def formatHMS (u : UTCTime) : String :=
  pad2 u.hour ++ ":" ++ pad2 u.minute ++ ":" ++ pad2 u.second

/-- Input recovery for one stored document: use `meta.inputs` when
present; otherwise, when `meta.date` and `meta.location` are truthy,
strip the trailing `" UTC"` marker, parse the timestamp with
`DateTime.fromSQL`, and on success rebuild the inputs from the parsed
UTC fields plus the stored place name. -/
def selectInputs (env : Env) (data : StoredDoc) : Option StoredInputs :=
  match data.meta with
  | none => none
  | some m =>
    match m.inputs with
    | some i => some i
    | none =>
      if truthyStr m.date && truthyStr m.location then
        match env.fromSQL ((m.date.getD "").replace " UTC" "") with
        | some utc =>
          some { year := some utc.year, month := some utc.month,
                 day := some utc.day, time := some (formatHMS utc),
                 location := some (m.location.getD "") }
        | none => none
      else none

/-- The observable fate of one processed record. -/
inductive Outcome
  | updated (id : ℤ) (doc : ChartDocument)
  | skipped (id : ℤ)
  | failed (id : ℤ) (msg : String)
  | critical (msg : String)
deriving DecidableEq

/-- The body of the per-record `try` block: parse the row when needed,
recover inputs, skip when the guard rejects them, otherwise recompute
the chart with the default options and persist it.  Any raised error
escapes as `Except.error` (to be caught by the per-record handler). -/
def processEvent (env : Env) (r : StoredRecord) : Except String Outcome :=
  match (match r.event_data with
         | Sum.inl s => env.parseJSON s
         | Sum.inr d => Except.ok d) with
  | Except.error e => Except.error e
  | Except.ok data =>
    match selectInputs env data with
    | none => Except.ok (Outcome.skipped r.event_id)
    | some i =>
      if inputsValid i then
        match calculateChart env (i.year.getD 0) (i.month.getD 0) (i.day.getD 0)
            (i.time.getD "") (i.location.getD "") with
        | Except.error e => Except.error e
        | Except.ok doc =>
          match env.update r.event_id doc with
          | Except.error e => Except.error e
          | Except.ok _ => Except.ok (Outcome.updated r.event_id doc)
      else Except.ok (Outcome.skipped r.event_id)

/-- The per-record `catch`: an error from processing one record is
converted into a logged `failed` outcome instead of propagating. -/
def jobStep (env : Env) (r : StoredRecord) : Outcome :=
  match processEvent env r with
  | Except.ok o => o
  | Except.error e => Outcome.failed r.event_id e

/-- The `for (const event of events)` loop: records are processed
strictly in order, each through its own catch. -/
def jobLoop (env : Env) : List StoredRecord → List Outcome
  | [] => []
  | r :: rest => jobStep env r :: jobLoop env rest

/-- Translation of `recalculateAllChartsOnStartup`: a failure of the
initial query is caught by the outer handler and only logged; otherwise
every fetched record is processed by the per-record loop.  The job
always returns its outcome log and never an error. -/
def recalculateAllChartsOnStartup (env : Env)
    (queryResult : Except String (List StoredRecord)) : List Outcome :=
  match queryResult with
  | Except.error e => [Outcome.critical e]
  | Except.ok events => jobLoop env events

/-! ## Concrete instances used to exhibit satisfiability of hypotheses -/

/-- A 13-entry raw cusp array as returned by the ephemeris library. -/
def cusps13 : List ℚ :=
  [10, 40, 70, 100, 130, 160, 190, 220, 250, 280, 310, 340, 360]

/-- The first twelve cusps of `cusps13`, one strictly increasing wheel. -/
def cusps12 : List ℚ :=
  [10, 40, 70, 100, 130, 160, 190, 220, 250, 280, 310, 340]

/-- A sample environment in which resolution and houses succeed and every
per-body ephemeris call fails. -/
def envS : Env :=
  { geocodingApiKey := some "K",
    geocode := fun _ => Except.ok ⟨51, 0, "GF"⟩,
    timezoneLookup := fun _ _ _ => Except.ok "Etc/UTC",
    toUTC := fun _ _ => some ⟨2000, 1, 1, 12, 0, 0⟩,
    julday := fun _ _ _ _ => 100,
    formatUTC := fun _ => "2000-01-01 12:00:00 UTC",
    calcBody := fun _ _ => Except.error "body unavailable",
    calcHouses := fun _ _ _ _ => Except.ok ⟨5, 95, cusps13⟩,
    fromSQL := fun _ => some ⟨2000, 1, 1, 12, 0, 0⟩,
    parseJSON := fun _ => Except.error "Unexpected token",
    update := fun _ _ => Except.ok () }

/-- A sample environment in which exactly one body (the Moon) fails. -/
def envA : Env :=
  { envS with
    calcBody := fun _ id =>
      if id = 1 then Except.error "Moon unavailable" else Except.ok ⟨123, 1, 2⟩ }

/-- The document `calculateChart envS 1999 2 3 "04:05" "Paris" false "K"`
produces. -/
def docW4 : ChartDocument :=
  { meta := { date := "2000-01-01 12:00:00 UTC", location := "GF",
              latitude := 51, longitude := 0,
              inputs := ⟨1999, 2, 3, "04:05", "Paris"⟩ },
    positions := [], houses := none, aspects := [] }

/-- The document the recalculation job produces for `recW` under `envS`. -/
def docW7 : ChartDocument :=
  { meta := { date := "2000-01-01 12:00:00 UTC", location := "GF",
              latitude := 51, longitude := 0,
              inputs := ⟨2000, 1, 1, "12:00:00", "G"⟩ },
    positions := [], houses := some ⟨"P", 5, 95, cusps12⟩, aspects := [] }

/-- A legacy stored record: no `meta.inputs`, but a parsable `meta.date`
and a `meta.location`. -/
def recW : StoredRecord :=
  { event_id := 7,
    event_data := Sum.inr ⟨some ⟨some "2000-01-01 12:00:00 UTC", some "G", none⟩⟩ }

/-! ## Lemmas: the first-match structure of the house search -/

lemma houseMatchB_false_of_not_true {L : ℚ} {l : List ℚ} {i : ℕ}
    (h : ¬ houseMatchB L l i = true) : houseMatchB L l i = false :=
  (Bool.not_eq_true _).mp h

lemma houseLoop_eq_some_iff (L : ℚ) (l : List ℚ) :
    ∀ fuel i r, houseLoop L l fuel i = some r ↔
      ∃ j, i ≤ j ∧ j < i + fuel ∧ houseMatchB L l j = true ∧
        (∀ k, i ≤ k → k < j → houseMatchB L l k = false) ∧ r = j + 1 := by
  intro fuel
  induction fuel with
  | zero =>
    intro i r
    simp only [houseLoop]
    constructor
    · intro h; exact absurd h (by simp)
    · rintro ⟨j, hj1, hj2, -⟩; omega
  | succ fuel ih =>
    intro i r
    rw [houseLoop]
    by_cases hmi : houseMatchB L l i = true
    · rw [if_pos hmi]
      constructor
      · intro h
        injection h with h
        refine ⟨i, le_refl i, by omega, hmi, ?_, h.symm⟩
        intro k hk1 hk2; exact absurd (lt_of_le_of_lt hk1 hk2) (lt_irrefl i)
      · rintro ⟨j, hj1, hj2, hj3, hj4, rfl⟩
        have hij : j = i := by
          rcases Nat.lt_or_ge i j with hlt | hge
          · have := hj4 i (le_refl i) hlt
            rw [this] at hmi; exact absurd hmi (by simp)
          · omega
        subst hij; rfl
    · rw [if_neg hmi]
      rw [ih]
      constructor
      · rintro ⟨j, hj1, hj2, hj3, hj4, rfl⟩
        refine ⟨j, by omega, by omega, hj3, ?_, rfl⟩
        intro k hk1 hk2
        rcases Nat.eq_or_lt_of_le hk1 with heq | hlt
        · rw [← heq]; exact houseMatchB_false_of_not_true hmi
        · exact hj4 k hlt hk2
      · rintro ⟨j, hj1, hj2, hj3, hj4, rfl⟩
        have hij : i ≠ j := by
          intro he; rw [he] at hmi; exact hmi hj3
        refine ⟨j, by omega, by omega, hj3, ?_, rfl⟩
        intro k hk1 hk2; exact hj4 k (by omega) hk2

lemma houseLoop_eq_none_iff (L : ℚ) (l : List ℚ) :
    ∀ fuel i, houseLoop L l fuel i = none ↔
      ∀ j, i ≤ j → j < i + fuel → houseMatchB L l j = false := by
  intro fuel
  induction fuel with
  | zero =>
    intro i
    simp only [houseLoop]
    constructor
    · intro _ j hj1 hj2; omega
    · intro _; trivial
  | succ fuel ih =>
    intro i
    rw [houseLoop]
    by_cases hmi : houseMatchB L l i = true
    · rw [if_pos hmi]
      constructor
      · intro h; exact absurd h (by simp)
      · intro h
        have := h i (le_refl i) (by omega)
        rw [this] at hmi; exact absurd hmi (by simp)
    · rw [if_neg hmi]
      rw [ih]
      constructor
      · intro h j hj1 hj2
        rcases Nat.eq_or_lt_of_le hj1 with heq | hlt
        · rw [← heq]; exact houseMatchB_false_of_not_true hmi
        · exact h j hlt (by omega)
      · intro h j hj1 hj2; exact h j (by omega) (by omega)

lemma getHousePlacement_of_length (L : ℚ) (l : List ℚ) (hlen : 12 ≤ l.length) :
    getHousePlacement L (some l) = houseLoop L l 12 0 := by
  rw [getHousePlacement, if_neg (by omega)]

/-! ## Lemmas: a circularly ordered cusp wheel partitions the circle -/

lemma houseMatchB_true_iff (L : ℚ) (l : List ℚ) (i : ℕ) :
    houseMatchB L l i = true ↔
      (if l.getD i 0 > l.getD ((i + 1) % 12) 0
       then (L ≥ l.getD i 0 ∨ L < l.getD ((i + 1) % 12) 0)
       else (L ≥ l.getD i 0 ∧ L < l.getD ((i + 1) % 12) 0)) := by
  simp only [houseMatchB]
  split_ifs with h <;> simp

lemma chain_mono (l : List ℚ) (d : ℕ) (hd : d < 12)
    (hasc : ∀ i, i < 12 → i ≠ d → l.getD i 0 < l.getD ((i + 1) % 12) 0) :
    ∀ k, k ≤ 11 → ∀ j, j < k →
      l.getD ((d + 1 + j) % 12) 0 < l.getD ((d + 1 + k) % 12) 0 := by
  intro k
  induction k with
  | zero => intro _ j hj; omega
  | succ k ih =>
    intro hk j hj
    have hstep : l.getD ((d + 1 + k) % 12) 0 < l.getD ((d + 1 + (k + 1)) % 12) 0 := by
      have h1 : (d + 1 + k) % 12 < 12 := Nat.mod_lt _ (by omega)
      have h2 : (d + 1 + k) % 12 ≠ d := by omega
      have h3 := hasc ((d + 1 + k) % 12) h1 h2
      have h4 : ((d + 1 + k) % 12 + 1) % 12 = (d + 1 + (k + 1)) % 12 := by omega
      rwa [h4] at h3
    rcases Nat.lt_or_ge j k with hlt | hge
    · exact lt_trans (ih (by omega) j hlt) hstep
    · have hjk : j = k := by omega
      subst hjk; exact hstep

lemma chain_le (l : List ℚ) (d : ℕ) (hd : d < 12)
    (hasc : ∀ i, i < 12 → i ≠ d → l.getD i 0 < l.getD ((i + 1) % 12) 0)
    (j k : ℕ) (hjk : j ≤ k) (hk : k ≤ 11) :
    l.getD ((d + 1 + j) % 12) 0 ≤ l.getD ((d + 1 + k) % 12) 0 := by
  rcases Nat.eq_or_lt_of_le hjk with he | hl
  · rw [he]
  · exact le_of_lt (chain_mono l d hd hasc k hk j hl)

lemma exists_cross (e : ℕ → ℚ) (L : ℚ) :
    ∀ n, e 0 ≤ L → L < e n → ∃ j, j < n ∧ e j ≤ L ∧ L < e (j + 1) := by
  intro n
  induction n with
  | zero => intro h0 hn; exact absurd hn (not_lt.mpr h0)
  | succ n ih =>
    intro h0 hn
    by_cases hL : L < e n
    · obtain ⟨j, hj, h1, h2⟩ := ih h0 hL
      exact ⟨j, by omega, h1, h2⟩
    · exact ⟨n, by omega, le_of_not_lt hL, hn⟩

lemma idx_as_chain (d i : ℕ) (hd : d < 12) (hi : i < 12) (hne : i ≠ d) :
    ∃ j, j < 11 ∧ (d + 1 + j) % 12 = i := by
  refine ⟨if d + 1 ≤ i then i - (d + 1) else i + 11 - d, ?_, ?_⟩ <;>
    split_ifs <;> omega

lemma chain_match_bounds (l : List ℚ) (d : ℕ) (hd : d < 12)
    (hasc : ∀ i, i < 12 → i ≠ d → l.getD i 0 < l.getD ((i + 1) % 12) 0)
    (L : ℚ) (j : ℕ) (hj : j < 11)
    (hm : houseMatchB L l ((d + 1 + j) % 12) = true) :
    l.getD ((d + 1 + j) % 12) 0 ≤ L ∧ L < l.getD ((d + 1 + (j + 1)) % 12) 0 := by
  rw [houseMatchB_true_iff] at hm
  have hidx : ((d + 1 + j) % 12 + 1) % 12 = (d + 1 + (j + 1)) % 12 := by omega
  rw [hidx] at hm
  have hmono := chain_mono l d hd hasc (j + 1) (by omega) j (by omega)
  rw [if_neg (not_lt.mpr (le_of_lt hmono))] at hm
  exact hm

lemma chain_match_of_window (l : List ℚ) (d : ℕ) (hd : d < 12)
    (hasc : ∀ i, i < 12 → i ≠ d → l.getD i 0 < l.getD ((i + 1) % 12) 0)
    (L : ℚ) (j : ℕ) (hj : j < 11)
    (h1 : l.getD ((d + 1 + j) % 12) 0 ≤ L)
    (h2 : L < l.getD ((d + 1 + (j + 1)) % 12) 0) :
    houseMatchB L l ((d + 1 + j) % 12) = true := by
  rw [houseMatchB_true_iff]
  have hidx : ((d + 1 + j) % 12 + 1) % 12 = (d + 1 + (j + 1)) % 12 := by omega
  rw [hidx]
  have hmono := chain_mono l d hd hasc (j + 1) (by omega) j (by omega)
  rw [if_neg (not_lt.mpr (le_of_lt hmono))]
  exact ⟨h1, h2⟩

lemma arc_exists (l : List ℚ) (d : ℕ) (hd : d < 12)
    (hdesc : l.getD ((d + 1) % 12) 0 < l.getD d 0)
    (hasc : ∀ i, i < 12 → i ≠ d → l.getD i 0 < l.getD ((i + 1) % 12) 0)
    (L : ℚ) : ∃ i, i < 12 ∧ houseMatchB L l i = true := by
  by_cases hcase : l.getD d 0 ≤ L ∨ L < l.getD ((d + 1) % 12) 0
  · refine ⟨d, hd, ?_⟩
    rw [houseMatchB_true_iff, if_pos hdesc]
    exact hcase
  · push_neg at hcase
    obtain ⟨h1, h2⟩ := hcase
    have h0 : (fun j => l.getD ((d + 1 + j) % 12) 0) 0 ≤ L := h2
    have h11 : L < (fun j => l.getD ((d + 1 + j) % 12) 0) 11 := by
      have he : (d + 1 + 11) % 12 = d := by omega
      show L < l.getD ((d + 1 + 11) % 12) 0
      rw [he]; exact h1
    obtain ⟨j, hj, hj1, hj2⟩ :=
      exists_cross (fun j => l.getD ((d + 1 + j) % 12) 0) L 11 h0 h11
    exact ⟨(d + 1 + j) % 12, Nat.mod_lt _ (by omega),
      chain_match_of_window l d hd hasc L j hj hj1 hj2⟩

lemma arc_unique (l : List ℚ) (d : ℕ) (hd : d < 12)
    (hdesc : l.getD ((d + 1) % 12) 0 < l.getD d 0)
    (hasc : ∀ i, i < 12 → i ≠ d → l.getD i 0 < l.getD ((i + 1) % 12) 0)
    (L : ℚ) (i i' : ℕ) (hi : i < 12) (hi' : i' < 12)
    (hmi : houseMatchB L l i = true) (hmi' : houseMatchB L l i' = true) :
    i = i' := by
  have hwrap : ∀ j : ℕ, j < 11 → houseMatchB L l ((d + 1 + j) % 12) = true →
      houseMatchB L l d = true → False := by
    intro j hj hm hmd
    obtain ⟨hb1, hb2⟩ := chain_match_bounds l d hd hasc L j hj hm
    have hlow : l.getD ((d + 1 + 0) % 12) 0 ≤ L :=
      le_trans (chain_le l d hd hasc 0 j (by omega) (by omega)) hb1
    have hhigh : L < l.getD ((d + 1 + 11) % 12) 0 :=
      lt_of_lt_of_le hb2 (chain_le l d hd hasc (j + 1) 11 (by omega) (le_refl _))
    have he0 : (d + 1 + 0) % 12 = (d + 1) % 12 := by omega
    have he11 : (d + 1 + 11) % 12 = d := by omega
    rw [he0] at hlow
    rw [he11] at hhigh
    rw [houseMatchB_true_iff, if_pos hdesc] at hmd
    rcases hmd with hge | hlt
    · exact absurd (lt_of_le_of_lt hge hhigh) (lt_irrefl _)
    · exact absurd hlt (not_lt.mpr hlow)
  by_cases hieq : i = d <;> by_cases hieq' : i' = d
  · rw [hieq, hieq']
  · exfalso
    obtain ⟨j', hj', hje'⟩ := idx_as_chain d i' hd hi' hieq'
    rw [← hje'] at hmi'
    exact hwrap j' hj' hmi' (hieq ▸ hmi)
  · exfalso
    obtain ⟨j, hj, hje⟩ := idx_as_chain d i hd hi hieq
    rw [← hje] at hmi
    exact hwrap j hj hmi (hieq' ▸ hmi')
  · obtain ⟨j, hj, hje⟩ := idx_as_chain d i hd hi hieq
    obtain ⟨j', hj', hje'⟩ := idx_as_chain d i' hd hi' hieq'
    rw [← hje] at hmi
    rw [← hje'] at hmi'
    obtain ⟨ha1, ha2⟩ := chain_match_bounds l d hd hasc L j hj hmi
    obtain ⟨hb1, hb2⟩ := chain_match_bounds l d hd hasc L j' hj' hmi'
    have hjj : j = j' := by
      by_contra hne
      rcases Nat.lt_or_ge j j' with hlt | hge
      · have : l.getD ((d + 1 + (j + 1)) % 12) 0 ≤ l.getD ((d + 1 + j') % 12) 0 :=
          chain_le l d hd hasc (j + 1) j' (by omega) (by omega)
        exact absurd (lt_of_lt_of_le ha2 (le_trans this hb1)) (lt_irrefl L)
      · have hlt' : j' < j := by omega
        have : l.getD ((d + 1 + (j' + 1)) % 12) 0 ≤ l.getD ((d + 1 + j) % 12) 0 :=
          chain_le l d hd hasc (j' + 1) j (by omega) (by omega)
        exact absurd (lt_of_lt_of_le hb2 (le_trans this ha1)) (lt_irrefl L)
    rw [← hje, ← hje', hjj]

/-! ## Lemmas: structure of successful chart computations -/

lemma filterMap_posOf_names (env : Env) (jd : ℚ) (ih : Bool) (hs : Option HouseSet) :
    ∀ pl : List (String × ℕ),
      (pl.filterMap (posOf env jd ih hs)).map Prod.fst =
        (pl.filter (fun p => okB (env.calcBody jd p.2))).map Prod.fst := by
  intro pl
  induction pl with
  | nil => rfl
  | cons p rest ihp =>
    rw [List.filterMap_cons, List.filter_cons]
    cases hcb : env.calcBody jd p.2 with
    | error e => simp [posOf, hcb, okB, ihp]
    | ok r => simp [posOf, hcb, okB, ihp]

lemma computePositions_names (env : Env) (jd : ℚ) (ih : Bool) (hs : Option HouseSet) :
    (computePositions env jd ih hs).map Prod.fst =
      (planets.filter (fun p => okB (env.calcBody jd p.2))).map Prod.fst :=
  filterMap_posOf_names env jd ih hs planets

lemma computePositions_sign_fields (env : Env) (jd : ℚ) (ih : Bool)
    (hs : Option HouseSet) (n : String) (p : Position)
    (hmem : (n, p) ∈ computePositions env jd ih hs) :
    p.sign = (getZodiacSign p.longitude).sign ∧
      p.sign_degrees = (getZodiacSign p.longitude).degrees := by
  unfold computePositions at hmem
  rw [List.mem_filterMap] at hmem
  obtain ⟨a, ha, hpa⟩ := hmem
  unfold posOf at hpa
  cases hcb : env.calcBody jd a.2 with
  | error e => rw [hcb] at hpa; exact absurd hpa (by simp)
  | ok r =>
    rw [hcb] at hpa
    injection hpa with hpa
    obtain ⟨h1, h2⟩ := Prod.mk.inj hpa
    rw [← h2]
    exact ⟨rfl, rfl⟩

lemma calculateChart_ok_inv (env : Env) (y m d : ℤ) (t loc : String)
    (ih : Bool) (hsys : String) (doc : ChartDocument)
    (h : calculateChart env y m d t loc ih hsys = Except.ok doc) :
    ∃ k geo tz utcTime houses,
      env.geocodingApiKey = some k ∧
      env.geocode loc = Except.ok geo ∧
      env.timezoneLookup geo.lat geo.lng (isoStringOf y m d t) = Except.ok tz ∧
      env.toUTC (isoStringOf y m d t) tz = some utcTime ∧
      computeHouses env (juldayOf env utcTime) geo.lat geo.lng ih hsys = Except.ok houses ∧
      doc = { meta := { date := env.formatUTC utcTime,
                        location := geo.formatted_address,
                        latitude := geo.lat, longitude := geo.lng,
                        inputs := ⟨y, m, d, t, loc⟩ },
              positions := computePositions env (juldayOf env utcTime) ih houses,
              houses := houses,
              aspects := buildAspects (computePositions env (juldayOf env utcTime) ih houses) } := by
  unfold calculateChart at h
  repeat' split at h
  all_goals try exact Except.noConfusion h
  injection h with h
  exact ⟨_, _, _, _, _, by assumption, by assumption, by assumption, by assumption,
    by assumption, h.symm⟩

lemma calculateChart_pipeline (env : Env) (y m d : ℤ) (t loc : String)
    (ih : Bool) (hsys : String) (k : String) (geo : GeoLocation)
    (tz : String) (u : UTCTime)
    (hk : env.geocodingApiKey = some k)
    (hgeo : env.geocode loc = Except.ok geo)
    (htz : env.timezoneLookup geo.lat geo.lng (isoStringOf y m d t) = Except.ok tz)
    (hu : env.toUTC (isoStringOf y m d t) tz = some u) :
    calculateChart env y m d t loc ih hsys =
      (match computeHouses env (juldayOf env u) geo.lat geo.lng ih hsys with
       | Except.error e => Except.error e
       | Except.ok houses =>
         Except.ok
           { meta := { date := env.formatUTC u,
                       location := geo.formatted_address,
                       latitude := geo.lat, longitude := geo.lng,
                       inputs := ⟨y, m, d, t, loc⟩ },
             positions := computePositions env (juldayOf env u) ih houses,
             houses := houses,
             aspects := buildAspects (computePositions env (juldayOf env u) ih houses) }) := by
  simp only [calculateChart, hk, hgeo, htz, hu]

/-! ## Lemmas: the recalculation job loop -/

lemma jobLoop_length (env : Env) : ∀ rs : List StoredRecord,
    (jobLoop env rs).length = rs.length := by
  intro rs
  induction rs with
  | nil => rfl
  | cons r rest ih => simp [jobLoop, ih]

lemma jobLoop_get? (env : Env) : ∀ (rs : List StoredRecord) (i : ℕ) (r : StoredRecord),
    rs.get? i = some r → (jobLoop env rs).get? i = some (jobStep env r) := by
  intro rs
  induction rs with
  | nil => intro i r h; exact absurd h (by simp)
  | cons hd tl ih =>
    intro i r h
    cases i with
    | zero =>
      injection h with h
      rw [h]; rfl
    | succ i => exact ih i r h

lemma computeHouses_true_ok (env : Env) (jd lat lng : ℚ) (hsys : String)
    (houses : Option HouseSet)
    (h : computeHouses env jd lat lng true hsys = Except.ok houses) :
    ∃ hs, houses = some hs ∧ hs.system = hsys := by
  unfold computeHouses at h
  rw [if_pos rfl] at h
  split at h
  · exact Except.noConfusion h
  · injection h with h
    exact ⟨_, h.symm, rfl⟩

lemma calculateChart_true_houses (env : Env) (y m d : ℤ) (t loc hsys : String)
    (doc : ChartDocument)
    (h : calculateChart env y m d t loc true hsys = Except.ok doc) :
    ∃ hs, doc.houses = some hs ∧ hs.system = hsys := by
  obtain ⟨k, geo, tz, u, houses, -, -, -, -, hch, rfl⟩ :=
    calculateChart_ok_inv env y m d t loc true hsys doc h
  obtain ⟨hs, rfl, hsy⟩ := computeHouses_true_ok env _ _ _ hsys houses hch
  exact ⟨hs, rfl, hsy⟩

/-! ## Claim theorems -/

/-- Claim C1: for a pair of longitudes the detector computes the
separation as the absolute difference folded to at most 180°, then walks
the catalog in the fixed order conjunction (0°, orb 8), opposition
(180°, orb 8), trine (120°, orb 8), square (90°, orb 8), sextile
(60°, orb 6), quincunx (150°, orb 3); the first kind within its orb is
recorded with the realized orb and no later kind is tested; a pair
matching no kind produces no aspect entry. -/
theorem aspect_catalog_first_match (l1 l2 : ℚ) :
    (detectAspect l1 l2 =
      (let sep := if |l1 - l2| > 180 then 360 - |l1 - l2| else |l1 - l2|
       if |sep - 0| ≤ 8 then some ("conjunction", |sep - 0|, "#4a4a4a")
       else if |sep - 180| ≤ 8 then some ("opposition", |sep - 180|, "#ff4d4d")
       else if |sep - 120| ≤ 8 then some ("trine", |sep - 120|, "#2b8a3e")
       else if |sep - 90| ≤ 8 then some ("square", |sep - 90|, "#e03131")
       else if |sep - 60| ≤ 6 then some ("sextile", |sep - 60|, "#1c7ed6")
       else if |sep - 150| ≤ 3 then some ("quincunx", |sep - 150|, "#f08c00")
       else none)) ∧
    (detectAspect l1 l2 = none ↔
      ∀ a ∈ aspectTypes, a.orb < |separation l1 l2 - a.angle|) := by
  constructor
  · rfl
  · rw [detectAspect]
    generalize separation l1 l2 = sep
    simp only [aspectTypes, findAspect, List.forall_mem_cons]
    split_ifs with h1 h2 h3 h4 h5 h6 <;>
      simp_all [not_le]

/-- Claim C2: the house placement returns house `i` (1-indexed) exactly
when the longitude lies in the half-open arc from `cusps[i-1]` to
`cusps[i mod 12]` (with the 0°-crossing disjunction when the lower cusp
exceeds the upper) and no earlier house matches; the result is `null`
when the cusp array is absent or has fewer than 12 entries. -/
theorem housePlacement_arc_characterization (L : ℚ) (cusps : Option (List ℚ)) :
    (cusps = none → getHousePlacement L cusps = none) ∧
    (∀ l, cusps = some l → l.length < 12 → getHousePlacement L cusps = none) ∧
    (∀ l, cusps = some l → 12 ≤ l.length → ∀ i : ℕ,
      (getHousePlacement L cusps = some i ↔
        1 ≤ i ∧ i ≤ 12 ∧ houseMatchB L l (i - 1) = true ∧
          ∀ j, j + 1 < i → houseMatchB L l j = false)) := by
  refine ⟨?_, ?_, ?_⟩
  · intro h; rw [h]; rfl
  · intro l h hlen; rw [h]
    show (if l.length < 12 then none else houseLoop L l 12 0) = none
    rw [if_pos hlen]
  · intro l h hlen i
    rw [h, getHousePlacement_of_length L l hlen, houseLoop_eq_some_iff]
    constructor
    · rintro ⟨j, hj0, hj12, hjm, hjf, rfl⟩
      refine ⟨by omega, by omega, ?_, ?_⟩
      · simpa using hjm
      · intro k hk; exact hjf k (by omega) (by omega)
    · rintro ⟨h1, h2, h3, h4⟩
      exact ⟨i - 1, by omega, by omega, h3,
        fun k hk1 hk2 => h4 k (by omega), by omega⟩

theorem housePlacement_arc_characterization_witness :
    getHousePlacement 15 (some cusps12) = some 1 :=
  ((housePlacement_arc_characterization 15 (some cusps12)).2.2 cusps12 rfl
      (by decide) 1).mpr
    ⟨le_refl 1, by omega, by decide, fun j hj => absurd hj (by omega)⟩

/-- Claim C3, counterexample: the sign classifier is not invariant under
adding a full turn; at longitude 0 + 360·1 the JavaScript table access is
out of range and yields no sign, while longitude 0 yields Aries. -/
theorem sign_not_invariant_under_wrap :
    (getZodiacSign (0 + 360 * 1)).sign ≠ (getZodiacSign 0).sign := by
  have h1 : (⌊((0:ℚ) + 360 * 1) / 30⌋ : ℤ) = 12 := by norm_num
  have h2 : (⌊(0:ℚ) / 30⌋ : ℤ) = 0 := by norm_num
  simp only [getZodiacSign, h1, h2]
  decide

/-- Claim C3, amended: the sign classifier performs no normalization of
its input.  `signOf(0)` is Aries with in-sign degree 0, and for every
longitude in [0, 360) the table index is already in range, but adding
360 overflows the table and yields no sign, so invariance under full
turns fails. -/
theorem sign_classifier_not_normalizing (L : ℚ) (h0 : 0 ≤ L) (h1 : L < 360) :
    ((getZodiacSign L).sign.isSome = true) ∧
    ((getZodiacSign (L + 360)).sign = none) ∧
    ((getZodiacSign 0).sign = some "Aries") ∧ ((getZodiacSign 0).degrees = 0) := by
  have h30 : (0:ℚ) < 30 := by norm_num
  have hq0 : (0:ℚ) ≤ L / 30 := by positivity
  have hfl0 : (0:ℤ) ≤ ⌊L / 30⌋ := Int.floor_nonneg.mpr hq0
  have hq12 : L / 30 < 12 := by
    rw [div_lt_iff₀ h30]; linarith
  have hfl : ⌊L / 30⌋ < 12 := Int.floor_lt.mpr (by exact_mod_cast hq12)
  refine ⟨?_, ?_, ?_, ?_⟩
  · show (if (⌊L / 30⌋ : ℤ) < 0 then none
          else zodiacSigns.get? (⌊L / 30⌋).toNat).isSome = true
    rw [if_neg (not_lt.mpr hfl0)]
    have hn : (⌊L / 30⌋).toNat < zodiacSigns.length := by
      show (⌊L / 30⌋).toNat < 12
      omega
    rw [List.get?_eq_get hn]
    rfl
  · show (if (⌊(L + 360) / 30⌋ : ℤ) < 0 then none
          else zodiacSigns.get? (⌊(L + 360) / 30⌋).toNat) = none
    have h12 : ⌊(L + 360) / 30⌋ = ⌊L / 30⌋ + 12 := by
      rw [show (L + 360) / 30 = L / 30 + 12 by ring]
      exact_mod_cast Int.floor_add_int (L / 30) 12
    rw [h12, if_neg (by omega)]
    apply List.get?_eq_none.mpr
    show 12 ≤ (⌊L / 30⌋ + 12).toNat
    omega
  · have hz : (⌊(0:ℚ) / 30⌋ : ℤ) = 0 := by norm_num
    show (if (⌊(0:ℚ) / 30⌋ : ℤ) < 0 then none
          else zodiacSigns.get? (⌊(0:ℚ) / 30⌋).toNat) = some "Aries"
    rw [hz]
    rfl
  · show jsMod 0 30 = 0
    rw [jsMod, jsTrunc]
    norm_num

theorem sign_classifier_not_normalizing_witness :
    (getZodiacSign (45:ℚ)).sign.isSome = true :=
  (sign_classifier_not_normalizing 45 (by norm_num) (by norm_num)).1

/-- Claim C4: every successful chart computation stores the caller's
original inputs verbatim in `meta.inputs`, never the resolved or
derived values. -/
theorem chart_inputs_roundtrip (env : Env) (y m d : ℤ) (t loc : String)
    (ih : Bool) (hsys : String) (doc : ChartDocument)
    (h : calculateChart env y m d t loc ih hsys = Except.ok doc) :
    doc.meta.inputs = ⟨y, m, d, t, loc⟩ := by
  obtain ⟨k, geo, tz, u, houses, -, -, -, -, -, rfl⟩ :=
    calculateChart_ok_inv env y m d t loc ih hsys doc h
  rfl

theorem chart_inputs_roundtrip_witness :
    docW4.meta.inputs = ⟨1999, 2, 3, "04:05", "Paris"⟩ :=
  chart_inputs_roundtrip envS 1999 2 3 "04:05" "Paris" false "K" docW4 rfl

/-- Claim C5: under a successful geotemporal resolution, a house-cusp
failure fails the entire chart computation when houses were requested,
while per-body ephemeris failures only omit the failing bodies: the call
succeeds and `positions` holds exactly the tracked bodies whose
ephemeris call reported no error. -/
theorem ephemeris_failure_isolation (env : Env) (y m d : ℤ) (t loc : String)
    (ih : Bool) (hsys : String) (k : String) (geo : GeoLocation)
    (tz : String) (u : UTCTime)
    (hk : env.geocodingApiKey = some k)
    (hgeo : env.geocode loc = Except.ok geo)
    (htz : env.timezoneLookup geo.lat geo.lng (isoStringOf y m d t) = Except.ok tz)
    (hu : env.toUTC (isoStringOf y m d t) tz = some u) :
    (∀ e, ih = true →
       env.calcHouses (juldayOf env u) geo.lat geo.lng hsys = Except.error e →
       calculateChart env y m d t loc ih hsys =
         Except.error ("House calculation failed: " ++ e)) ∧
    ((ih = false ∨ okB (env.calcHouses (juldayOf env u) geo.lat geo.lng hsys) = true) →
       ∃ doc, calculateChart env y m d t loc ih hsys = Except.ok doc ∧
         doc.positions.map Prod.fst =
           (planets.filter (fun p => okB (env.calcBody (juldayOf env u) p.2))).map
             Prod.fst) := by
  rw [calculateChart_pipeline env y m d t loc ih hsys k geo tz u hk hgeo htz hu]
  constructor
  · intro e hih hce
    subst hih
    unfold computeHouses
    rw [if_pos rfl, hce]
  · intro hcase
    rcases hcase with hih | hok
    · subst hih
      exact ⟨_, rfl, computePositions_names env (juldayOf env u) false none⟩
    · cases hch : env.calcHouses (juldayOf env u) geo.lat geo.lng hsys with
      | error e => rw [hch] at hok; exact absurd hok (by simp [okB])
      | ok hr =>
        cases ih with
        | false => exact ⟨_, rfl, computePositions_names env (juldayOf env u) false none⟩
        | true =>
          have hch2 : computeHouses env (juldayOf env u) geo.lat geo.lng true hsys =
              Except.ok (some ⟨hsys, hr.asc, hr.mc, hr.house.take 12⟩) := by
            unfold computeHouses
            rw [if_pos rfl, hch]
          rw [hch2]
          exact ⟨_, rfl, computePositions_names env (juldayOf env u) true _⟩

theorem ephemeris_failure_isolation_witness :
    (calculateChart envA 2000 1 1 "12:00" "G" true "P").map
        (fun doc => doc.positions.map Prod.fst) =
      Except.ok ["Sun", "Mercury", "Venus", "Mars", "Jupiter", "Saturn",
                 "Uranus", "Neptune", "Pluto", "North Node", "Chiron"] := by
  obtain ⟨doc, h1, h2⟩ :=
    (ephemeris_failure_isolation envA 2000 1 1 "12:00" "G" true "P" "K"
        ⟨51, 0, "GF"⟩ "Etc/UTC" ⟨2000, 1, 1, 12, 0, 0⟩ rfl rfl rfl rfl).2
      (Or.inr rfl)
  rw [h1]
  show Except.ok (doc.positions.map Prod.fst) = _
  rw [h2]
  rfl

/-- Claim C9: for longitudes in [0, 360) the sign degree is the
remainder of the longitude by 30 (hence in [0, 30)) and the sign is the
fixed table entry at floor(longitude/30), with Aries first in a 12-entry
table; every position built by the chart computation carries exactly
these classifier values; and aspect detection is symmetric in the pair
order. -/
theorem sign_decomposition_and_aspect_symmetry (L : ℚ) (h0 : 0 ≤ L) (h1 : L < 360) :
    ((getZodiacSign L).degrees = L - 30 * ((⌊L / 30⌋ : ℤ) : ℚ)) ∧
    (0 ≤ (getZodiacSign L).degrees ∧ (getZodiacSign L).degrees < 30) ∧
    ((getZodiacSign L).sign = zodiacSigns.get? (⌊L / 30⌋).toNat) ∧
    (zodiacSigns.length = 12 ∧ zodiacSigns.get? 0 = some "Aries") ∧
    (∀ env jd ih hs n p, (n, p) ∈ computePositions env jd ih hs →
       p.sign = (getZodiacSign p.longitude).sign ∧
       p.sign_degrees = (getZodiacSign p.longitude).degrees) ∧
    (∀ a b : ℚ, detectAspect a b = detectAspect b a) := by
  have h30 : (0:ℚ) < 30 := by norm_num
  have hq0 : (0:ℚ) ≤ L / 30 := by positivity
  have hfl0 : (0:ℤ) ≤ ⌊L / 30⌋ := Int.floor_nonneg.mpr hq0
  have hds : (getZodiacSign L).degrees = L - 30 * ((⌊L / 30⌋ : ℤ) : ℚ) := by
    show jsMod L 30 = _
    rw [jsMod, jsTrunc, if_neg (not_lt.mpr hq0)]
  have hle : ((⌊L / 30⌋ : ℤ) : ℚ) ≤ L / 30 := Int.floor_le _
  have hlt : L / 30 < ((⌊L / 30⌋ : ℤ) : ℚ) + 1 := Int.lt_floor_add_one _
  have hL30 : 30 * (L / 30) = L := by field_simp
  have hle2 : 30 * ((⌊L / 30⌋ : ℤ) : ℚ) ≤ L := by
    have := mul_le_mul_of_nonneg_left hle (le_of_lt h30)
    linarith
  have hlt2 : L < 30 * ((⌊L / 30⌋ : ℤ) : ℚ) + 30 := by
    have := mul_lt_mul_of_pos_left hlt h30
    linarith
  refine ⟨hds, ⟨?_, ?_⟩, ?_, ⟨rfl, rfl⟩, ?_, ?_⟩
  · rw [hds]; linarith
  · rw [hds]; linarith
  · show (if (⌊L / 30⌋ : ℤ) < 0 then none
          else zodiacSigns.get? (⌊L / 30⌋).toNat) = zodiacSigns.get? (⌊L / 30⌋).toNat
    rw [if_neg (not_lt.mpr hfl0)]
  · exact fun env jd ih hs n p hmem =>
      computePositions_sign_fields env jd ih hs n p hmem
  · intro a b
    unfold detectAspect
    congr 1
    unfold separation
    rw [abs_sub_comm]

theorem sign_decomposition_and_aspect_symmetry_witness :
    (getZodiacSign (45:ℚ)).degrees = 45 - 30 * ((⌊(45:ℚ) / 30⌋ : ℤ) : ℚ) :=
  (sign_decomposition_and_aspect_symmetry 45 (by norm_num) (by norm_num)).1

/-- Claim C6: the recalculation job never propagates an error: a query
failure is caught and only logged, every fetched record is processed in
order regardless of the fate of the others, a per-record error becomes a
logged `failed` outcome, and a record whose inputs are neither present
nor reconstructible (or fail the truthiness guard) is skipped without
failing the job. -/
theorem recalc_never_propagates (env : Env) (q : Except String (List StoredRecord)) :
    (∀ e, q = Except.error e →
       recalculateAllChartsOnStartup env q = [Outcome.critical e]) ∧
    (∀ rs, q = Except.ok rs →
       (recalculateAllChartsOnStartup env q).length = rs.length ∧
       ∀ i r, rs.get? i = some r →
         (recalculateAllChartsOnStartup env q).get? i = some (jobStep env r)) ∧
    (∀ r e, processEvent env r = Except.error e →
       jobStep env r = Outcome.failed r.event_id e) ∧
    (∀ r dta, r.event_data = Sum.inr dta → selectInputs env dta = none →
       processEvent env r = Except.ok (Outcome.skipped r.event_id)) ∧
    (∀ r dta i, r.event_data = Sum.inr dta → selectInputs env dta = some i →
       inputsValid i = false →
       processEvent env r = Except.ok (Outcome.skipped r.event_id)) := by
  refine ⟨?_, ?_, ?_, ?_, ?_⟩
  · intro e he; rw [he]; rfl
  · intro rs hq; rw [hq]
    exact ⟨jobLoop_length env rs, jobLoop_get? env rs⟩
  · intro r e he; unfold jobStep; rw [he]
  · intro r dta hr hsel
    simp only [processEvent, hr, hsel]
  · intro r dta i hr hsel hval
    simp only [processEvent, hr, hsel, hval]
    simp

theorem recalc_never_propagates_witness :
    recalculateAllChartsOnStartup envS (Except.error "db down") =
      [Outcome.critical "db down"] :=
  (recalc_never_propagates envS (Except.error "db down")).1 "db down" rfl

/-- Claim C7: the job uses `meta.inputs` directly when present; otherwise,
with a truthy stored date and location and a parsable stored UTC
timestamp, it reconstructs the inputs from the parsed UTC fields plus the
stored place name, and a successful recomputation stores exactly those
reconstructed inputs, so `meta.inputs.location` equals the legacy
`meta.location`. -/
theorem legacy_inputs_reconstruction (env : Env) (r : StoredRecord)
    (dta : StoredDoc) (m : StoredMeta)
    (hr : r.event_data = Sum.inr dta) (hm : dta.meta = some m) :
    (∀ i, m.inputs = some i → selectInputs env dta = some i) ∧
    (∀ utc, m.inputs = none → truthyStr m.date = true →
       truthyStr m.location = true →
       env.fromSQL ((m.date.getD "").replace " UTC" "") = some utc →
       selectInputs env dta =
         some { year := some utc.year, month := some utc.month,
                day := some utc.day, time := some (formatHMS utc),
                location := some (m.location.getD "") }) ∧
    (∀ utc eid doc, m.inputs = none → truthyStr m.date = true →
       truthyStr m.location = true →
       env.fromSQL ((m.date.getD "").replace " UTC" "") = some utc →
       processEvent env r = Except.ok (Outcome.updated eid doc) →
       doc.meta.inputs = ⟨utc.year, utc.month, utc.day, formatHMS utc,
                          m.location.getD ""⟩) := by
  have hsel1 : ∀ i, m.inputs = some i → selectInputs env dta = some i := by
    intro i hi
    simp only [selectInputs, hm, hi]
  have hsel2 : ∀ utc, m.inputs = none → truthyStr m.date = true →
      truthyStr m.location = true →
      env.fromSQL ((m.date.getD "").replace " UTC" "") = some utc →
      selectInputs env dta =
        some { year := some utc.year, month := some utc.month,
               day := some utc.day, time := some (formatHMS utc),
               location := some (m.location.getD "") } := by
    intro utc hni hd hl hparse
    simp only [selectInputs, hm, hni, hd, hl, Bool.and_self, if_true, hparse]
  refine ⟨hsel1, hsel2, ?_⟩
  intro utc eid doc hni hd hl hparse hok
  have hsel := hsel2 utc hni hd hl hparse
  simp only [processEvent, hr, hsel] at hok
  by_cases hval : inputsValid
      { year := some utc.year, month := some utc.month, day := some utc.day,
        time := some (formatHMS utc), location := some (m.location.getD "") } = true
  · rw [if_pos hval] at hok
    split at hok
    · exact Except.noConfusion hok
    · split at hok
      · exact Except.noConfusion hok
      · injection hok with hok
        injection hok with hok1 hok2
        subst hok2
        obtain ⟨k2, geo2, tz2, u2, houses2, -, -, -, -, -, rfl⟩ :=
          calculateChart_ok_inv env _ _ _ _ _ _ _ _ (by assumption)
        rfl
  · rw [if_neg hval] at hok
    injection hok with hok
    exact Outcome.noConfusion hok

theorem legacy_inputs_reconstruction_witness :
    docW7.meta.inputs = ⟨2000, 1, 1, "12:00:00", "G"⟩ :=
  (legacy_inputs_reconstruction envS recW
      ⟨some ⟨some "2000-01-01 12:00:00 UTC", some "G", none⟩⟩
      ⟨some "2000-01-01 12:00:00 UTC", some "G", none⟩ rfl rfl).2.2
    ⟨2000, 1, 1, 12, 0, 0⟩ 7 docW7 rfl rfl rfl rfl rfl

/-- Claim C10: the recalculation job invokes the chart computation with
its default options (houses included, house system "P"), so every
successfully recalculated document carries a houses payload with system
"P". -/
theorem recalc_uses_default_houses (env : Env) (r : StoredRecord) (eid : ℤ)
    (doc : ChartDocument)
    (h : processEvent env r = Except.ok (Outcome.updated eid doc)) :
    ∃ hs, doc.houses = some hs ∧ hs.system = "P" := by
  unfold processEvent at h
  split at h
  · exact Except.noConfusion h
  · split at h
    · injection h with h; exact Outcome.noConfusion h
    · split at h
      · split at h
        · exact Except.noConfusion h
        · split at h
          · exact Except.noConfusion h
          · injection h with h
            injection h with h1 h2
            subst h2
            exact calculateChart_true_houses env _ _ _ _ _ "P" _ (by assumption)
      · injection h with h; exact Outcome.noConfusion h

theorem recalc_uses_default_houses_witness : docW7.houses.isSome = true := by
  obtain ⟨hs, hhs, -⟩ := recalc_uses_default_houses envS recW 7 docW7 rfl
  rw [hhs]
  rfl

/-- Claim C8: for a 12-entry cusp array that is strictly circularly
ordered (strictly ascending except at exactly one wrap index) and any
longitude in [0, 360), exactly one house arc contains the longitude, the
placement returns a house in 1..12, and each cusp value is placed in the
house it opens. -/
theorem houseOf_total_and_cusp_membership (l : List ℚ) (hlen : l.length = 12)
    (d : ℕ) (hd : d < 12)
    (hdesc : l.getD ((d + 1) % 12) 0 < l.getD d 0)
    (hasc : ∀ i, i < 12 → i ≠ d → l.getD i 0 < l.getD ((i + 1) % 12) 0)
    (L : ℚ) (hL0 : 0 ≤ L) (hL1 : L < 360) :
    (∃! i, i < 12 ∧ houseMatchB L l i = true) ∧
    (∃ h, getHousePlacement L (some l) = some h ∧ 1 ≤ h ∧ h ≤ 12) ∧
    (∀ i, i < 12 → getHousePlacement (l.getD i 0) (some l) = some (i + 1)) := by
  have huniq := arc_unique l d hd hdesc hasc
  have h12 : (12:ℕ) ≤ l.length := by omega
  refine ⟨?_, ?_, ?_⟩
  · obtain ⟨i0, hi0, hm0⟩ := arc_exists l d hd hdesc hasc L
    exact ⟨i0, ⟨hi0, hm0⟩, fun y hy => huniq L y i0 hy.1 hi0 hy.2 hm0⟩
  · obtain ⟨i0, hi0, hm0⟩ := arc_exists l d hd hdesc hasc L
    rw [getHousePlacement_of_length L l h12]
    cases hres : houseLoop L l 12 0 with
    | none =>
      exfalso
      rw [houseLoop_eq_none_iff] at hres
      have hf := hres i0 (Nat.zero_le _) (by omega)
      rw [hf] at hm0
      exact absurd hm0 (by simp)
    | some r =>
      rw [houseLoop_eq_some_iff] at hres
      obtain ⟨j, -, hj12, -, -, rfl⟩ := hres
      exact ⟨j + 1, rfl, by omega, by omega⟩
  · intro i hi
    have hmi : houseMatchB (l.getD i 0) l i = true := by
      by_cases hieq : i = d
      · subst hieq
        rw [houseMatchB_true_iff, if_pos hdesc]
        exact Or.inl (le_refl _)
      · obtain ⟨j, hj, hje⟩ := idx_as_chain d i hd hi hieq
        rw [← hje]
        exact chain_match_of_window l d hd hasc _ j hj (le_refl _)
          (chain_mono l d hd hasc (j + 1) (by omega) j (by omega))
    rw [getHousePlacement_of_length _ l h12, houseLoop_eq_some_iff]
    refine ⟨i, Nat.zero_le _, by omega, hmi, ?_, rfl⟩
    intro k hk0 hki
    cases hb : houseMatchB (l.getD i 0) l k with
    | false => rfl
    | true =>
      have hki2 := huniq (l.getD i 0) k i (by omega) hi hb hmi
      omega

theorem houseOf_total_and_cusp_membership_witness :
    getHousePlacement (cusps12.getD 3 0) (some cusps12) = some 4 :=
  (houseOf_total_and_cusp_membership cusps12 (by decide) 11 (by decide)
      (by decide) (by decide) (cusps12.getD 3 0) (by decide) (by decide)).2.2 3
    (by decide)
